import Mathlib

/-!
Shallow embedding of the residual-analysis portion of
`src/Moco/Bindings/Python/examples/exampleKinematicConstraints.py`.

The script builds a planar point-mass model constrained to the parabola
`ty = tx^2`, solves it with Moco, and then (inside the `if has_pylab:` block,
lines 84-145) walks the solution trajectory with a stride of 10, computing at
each visited sample the constraint reaction force `J * multiplier[itime]`
(where the multiplier series was negated on line 101), a visualization-scaled
copy of that force, and the residuals of the equations of motion

    residualx = +constraintForces[0] - mass * accelx[itime]
    residualy = -mass * g + constraintForces[1] - mass * accely[itime]

Scalars are modelled as rationals; the external collaborators (constraint
Jacobian `matter.calcPq` and the spline-based acceleration estimator) are
injected as functions / precomputed series, exactly as the spec's component
boundary prescribes.  Out-of-range sequence accesses (Python `IndexError`)
are modelled explicitly.
-/

namespace KinematicConstraints

/-- Error raised by an out-of-range sequence access, modelling Python's
`IndexError` with the offending index. -/
inductive AnalysisError where
  | indexError (index : ℕ) : AnalysisError
deriving DecidableEq, Repr

/-- Indexing into a series, modelling `xs[i]` on a Python/numpy 1-d array:
the value when in range, an `IndexError` otherwise. -/
def getAt (xs : List ℚ) (i : ℕ) : Except AnalysisError ℚ :=
  match xs[i]? with
  | some v => Except.ok v
  | none => Except.error (AnalysisError.indexError i)

/-- One emitted record of the analysis loop: the values passed to
`pl.arrow` (position omitted, scaled force kept) and to the `print` call
(time and the two residuals), plus the unscaled constraint force. -/
structure ResidualSample where
  time : ℚ
  forcex : ℚ
  forcey : ℚ
  vizx : ℚ
  vizy : ℚ
  residualx : ℚ
  residualy : ℚ
deriving DecidableEq, Repr

/-- The body of the `while itime < statesTraj.getSize()` loop
(source lines 121-141) at a given `itime`:
look up the configuration `(tx, ty)` carried by the state, evaluate the
constraint Jacobian `calcPq` there, multiply by `multiplier[itime]` to get the
generalized constraint forces, scale a copy by `vizScale` (source literal
0.010) for the arrow, and form the residuals
`residualx = +constraintForces[0] - mass * accelx[itime]` and
`residualy = -mass * g + constraintForces[1] - mass * accely[itime]`;
the printed time is `time[itime]`. -/
def analyzeBody (calcPq : ℚ → ℚ → ℚ × ℚ) (mass g vizScale : ℚ)
    (time tx ty multiplier accelx accely : List ℚ) (itime : ℕ) :
    Except AnalysisError ResidualSample := do
  let txi ← getAt tx itime
  let tyi ← getAt ty itime
  let jac := calcPq txi tyi
  let mi ← getAt multiplier itime
  let constraintForces := (jac.1 * mi, jac.2 * mi)
  let constraintForcesViz := (vizScale * constraintForces.1,
                              vizScale * constraintForces.2)
  let axi ← getAt accelx itime
  let ayi ← getAt accely itime
  let residualx := constraintForces.1 - mass * axi
  let residualy := -mass * g + constraintForces.2 - mass * ayi
  let ti ← getAt time itime
  Except.ok ⟨ti, constraintForces.1, constraintForces.2,
             constraintForcesViz.1, constraintForcesViz.2,
             residualx, residualy⟩

/-- The `while itime < statesTraj.getSize(): ...; itime += 10` loop
(source lines 119-143), generalized over the stride as the spec's
`sampleStride`.  `N` is `statesTraj.getSize()`.  Returns the samples emitted
(in order) before either the loop condition fails or an access raises, and
the error if one was raised.  The emitted prefix is kept on error because the
source prints each sample as it goes. -/
def analyzeLoop (calcPq : ℚ → ℚ → ℚ × ℚ) (mass g vizScale : ℚ)
    (time tx ty multiplier accelx accely : List ℚ)
    (N stride : ℕ) (hstride : 0 < stride) (itime : ℕ) :
    List ResidualSample × Option AnalysisError :=
  if _h : itime < N then
    match analyzeBody calcPq mass g vizScale time tx ty multiplier
        accelx accely itime with
    | Except.error e => ([], some e)
    | Except.ok s =>
        let rest := analyzeLoop calcPq mass g vizScale time tx ty multiplier
          accelx accely N stride hstride (itime + stride)
        (s :: rest.1, rest.2)
  else ([], none)
termination_by N - itime
decreasing_by omega

/-- The whole analysis pass: the loop started at `itime = 0`
(source line 119). -/
def analyze (calcPq : ℚ → ℚ → ℚ × ℚ) (mass g vizScale : ℚ)
    (time tx ty multiplier accelx accely : List ℚ)
    (N stride : ℕ) (hstride : 0 < stride) :
    List ResidualSample × Option AnalysisError :=
  analyzeLoop calcPq mass g vizScale time tx ty multiplier accelx accely
    N stride hstride 0

/-- The stride hard-coded on source line 143 (`itime += 10`). -/
def defaultStride : ℕ := 10

/-- The visualization scale hard-coded on source line 133
(`constraintForcesViz = 0.010 * constraintForces`). -/
def defaultVizScale : ℚ := 1 / 100

/-- The data the script reads off the `MocoTrajectory` returned by
`study.solve()` (source lines 98-102 and 116): the time grid, the two state
columns, the list of multiplier names, and the multiplier column for each
name.  `exportToStatesTrajectory` yields one state per time point, so the
loop bound `statesTraj.getSize()` is the time grid's length. -/
structure MocoSolution where
  timeMat : List ℚ
  txMat : List ℚ
  tyMat : List ℚ
  multiplierNames : List String
  multiplierMat : String → List ℚ

/-- Source line 101:
`multiplier = -solution.getMultiplierMat(solution.getMultiplierNames()[0])` —
the column of the first-named multiplier, negated elementwise. -/
def scriptMultiplier (sol : MocoSolution) : List ℚ :=
  (sol.multiplierMat (sol.multiplierNames.headD "")).map (fun x => -x)

/-- The analysis pass as the script runs it on a solution (source lines
98-143): trajectory columns from the solution, the multiplier series of the
first-named multiplier negated, loop bound `statesTraj.getSize()`, i.e. the
length of the time grid.  The accelerations come from the external spline
estimator and are passed in. -/
def analyzeSolution (calcPq : ℚ → ℚ → ℚ × ℚ) (mass g vizScale : ℚ)
    (sol : MocoSolution) (accelx accely : List ℚ)
    (stride : ℕ) (hstride : 0 < stride) :
    List ResidualSample × Option AnalysisError :=
  analyze calcPq mass g vizScale sol.timeMat sol.txMat sol.tyMat
    (scriptMultiplier sol) accelx accely sol.timeMat.length stride hstride

/-- Source line 34: `g = abs(model.get_gravity()[1])` — the gravity scalar is
the absolute value of the y-component of the model's gravity vector. -/
def gravityScalar (gravity : ℚ × ℚ × ℚ) : ℚ := |gravity.2.1|

/-- Outcome of the script section guarded by the pylab/scipy import
(source lines 84-145): either the `except:` branch printed
`'Skipping plotting'` and the `if has_pylab:` block was skipped entirely, or
the analysis ran and produced its samples (and possibly an error). -/
inductive ScriptOutcome where
  | skippedPlotting : ScriptOutcome
  | analyzed (result : List ResidualSample × Option AnalysisError) :
      ScriptOutcome
deriving DecidableEq, Repr

/-- The guarded tail of the script (source lines 84-145): `importsOk` models
whether `import pylab` and `from scipy.interpolate import ...` succeeded
(`has_pylab`).  On failure nothing of the analysis runs; on success the
analysis runs with `g` taken from `gravityScalar` of the model's gravity
vector (source line 34). -/
def scriptMain (importsOk : Bool) (calcPq : ℚ → ℚ → ℚ × ℚ)
    (mass : ℚ) (gravity : ℚ × ℚ × ℚ) (vizScale : ℚ)
    (sol : MocoSolution) (accelx accely : List ℚ)
    (stride : ℕ) (hstride : 0 < stride) : ScriptOutcome :=
  if importsOk then
    ScriptOutcome.analyzed
      (analyzeSolution calcPq mass (gravityScalar gravity) vizScale sol
        accelx accely stride hstride)
  else ScriptOutcome.skippedPlotting

/-- The residual samples an outcome carries (none when plotting was
skipped). -/
def emittedSamples : ScriptOutcome → List ResidualSample
  | ScriptOutcome.skippedPlotting => []
  | ScriptOutcome.analyzed r => r.1

/-! ### Characterization of the loop

`sampleAt` and `ceilDiv` are proof-side descriptions of what the loop
produces; `analyzeLoop_char` proves the loop equal to them. -/

/-- The sample the loop body produces at an in-range index `i`, written with
total (default-0) lookups. -/
def sampleAt (calcPq : ℚ → ℚ → ℚ × ℚ) (mass g vizScale : ℚ)
    (time tx ty multiplier accelx accely : List ℚ) (i : ℕ) : ResidualSample :=
  let jac := calcPq (tx.getD i 0) (ty.getD i 0)
  let f1 := jac.1 * multiplier.getD i 0
  let f2 := jac.2 * multiplier.getD i 0
  { time := time.getD i 0
    forcex := f1
    forcey := f2
    vizx := vizScale * f1
    vizy := vizScale * f2
    residualx := f1 - mass * accelx.getD i 0
    residualy := -mass * g + f2 - mass * accely.getD i 0 }

/-- Ceiling division on naturals: `⌈n / k⌉`. -/
def ceilDiv (n k : ℕ) : ℕ := (n + k - 1) / k

theorem ceilDiv_zero (k : ℕ) : ceilDiv 0 k = 0 := by
  unfold ceilDiv
  rcases Nat.eq_zero_or_pos k with hk | hk
  · subst hk; rfl
  · exact Nat.div_eq_of_lt (by omega)

theorem ceilDiv_of_pos {n k : ℕ} (hk : 0 < k) (hn : 0 < n) :
    ceilDiv n k = ceilDiv (n - k) k + 1 := by
  unfold ceilDiv
  have h1 : n + k - 1 = (n - 1) + k := by omega
  rw [h1, Nat.add_div_right _ hk]
  rcases le_or_lt n k with hnk | hnk
  · have h2 : n - k = 0 := by omega
    rw [h2]
    have h3 : (n - 1) / k = 0 := Nat.div_eq_of_lt (by omega)
    have h4 : (0 + k - 1) / k = 0 := Nat.div_eq_of_lt (by omega)
    omega
  · have h2 : n - k + k - 1 = (n - k - 1) + k := by omega
    rw [h2, Nat.add_div_right _ hk]
    have h3 : n - 1 = (n - k - 1) + k := by omega
    rw [h3, Nat.add_div_right _ hk]

theorem le_ceilDiv_mul {k : ℕ} (hk : 0 < k) (n : ℕ) :
    n ≤ ceilDiv n k * k := by
  unfold ceilDiv
  rw [mul_comm]
  have hmod := Nat.div_add_mod (n + k - 1) k
  have hlt : (n + k - 1) % k < k := Nat.mod_lt _ hk
  omega

theorem getAt_eq_ok {xs : List ℚ} {i : ℕ} (h : i < xs.length) :
    getAt xs i = Except.ok (xs.getD i 0) := by
  unfold getAt
  rw [List.getElem?_eq_getElem h, List.getD_eq_getElem?_getD,
    List.getElem?_eq_getElem h]
  rfl

theorem getAt_eq_error {xs : List ℚ} {i : ℕ} (h : xs.length ≤ i) :
    getAt xs i = Except.error (AnalysisError.indexError i) := by
  unfold getAt
  rw [List.getElem?_eq_none h]

theorem analyzeBody_ok (calcPq : ℚ → ℚ → ℚ × ℚ) (mass g vizScale : ℚ)
    {time tx ty multiplier accelx accely : List ℚ} {i : ℕ}
    (htime : i < time.length) (htx : i < tx.length) (hty : i < ty.length)
    (hmult : i < multiplier.length)
    (hax : i < accelx.length) (hay : i < accely.length) :
    analyzeBody calcPq mass g vizScale time tx ty multiplier accelx accely i =
      Except.ok
        (sampleAt calcPq mass g vizScale time tx ty multiplier accelx accely
          i) := by
  unfold analyzeBody
  rw [getAt_eq_ok htx, getAt_eq_ok hty, getAt_eq_ok hmult, getAt_eq_ok hax,
    getAt_eq_ok hay, getAt_eq_ok htime]
  rfl

theorem analyzeBody_error (calcPq : ℚ → ℚ → ℚ × ℚ) (mass g vizScale : ℚ)
    {time tx ty multiplier accelx accely : List ℚ} {i : ℕ}
    (htx : i < tx.length) (hty : i < ty.length)
    (hmult : multiplier.length ≤ i) :
    analyzeBody calcPq mass g vizScale time tx ty multiplier accelx accely i =
      Except.error (AnalysisError.indexError i) := by
  unfold analyzeBody
  rw [getAt_eq_ok htx, getAt_eq_ok hty, getAt_eq_error hmult]
  rfl

/-- Full characterization of the loop from any start index `i0`, assuming the
trajectory-derived series all have length at least `N` (they do in the
script: they all come from the same solution) but placing no constraint on
the multiplier series: the loop emits one sample per visited index below
`min N multiplier.length`, and raises an `IndexError` at the first visited
index that is inside the trajectory but outside the multiplier series, if
such an index exists. -/
theorem analyzeLoop_char (calcPq : ℚ → ℚ → ℚ × ℚ) (mass g vizScale : ℚ)
    (time tx ty multiplier accelx accely : List ℚ) (N k : ℕ) (hk : 0 < k)
    (htime : N ≤ time.length) (htx : N ≤ tx.length) (hty : N ≤ ty.length)
    (hax : N ≤ accelx.length) (hay : N ≤ accely.length) :
    ∀ i0,
      analyzeLoop calcPq mass g vizScale time tx ty multiplier accelx accely
          N k hk i0 =
        ((List.range (ceilDiv (min N multiplier.length - i0) k)).map
            (fun j => sampleAt calcPq mass g vizScale time tx ty multiplier
              accelx accely (i0 + j * k)),
         if i0 + ceilDiv (min N multiplier.length - i0) k * k < N then
           some (AnalysisError.indexError
             (i0 + ceilDiv (min N multiplier.length - i0) k * k))
         else none) := by
  have key : ∀ (d i0 : ℕ), N - i0 ≤ d →
      analyzeLoop calcPq mass g vizScale time tx ty multiplier accelx accely
          N k hk i0 =
        ((List.range (ceilDiv (min N multiplier.length - i0) k)).map
            (fun j => sampleAt calcPq mass g vizScale time tx ty multiplier
              accelx accely (i0 + j * k)),
         if i0 + ceilDiv (min N multiplier.length - i0) k * k < N then
           some (AnalysisError.indexError
             (i0 + ceilDiv (min N multiplier.length - i0) k * k))
         else none) := by
    intro d
    induction d with
    | zero =>
      intro i0 hd
      have hN : ¬ i0 < N := by omega
      have hz : min N multiplier.length - i0 = 0 := by omega
      rw [analyzeLoop, dif_neg hN, hz, ceilDiv_zero]
      simp only [List.range_zero, List.map_nil, Nat.zero_mul, Nat.add_zero]
      rw [if_neg hN]
    | succ d ih =>
      intro i0 hd
      by_cases hN : i0 < N
      · by_cases hmi : i0 < multiplier.length
        · -- in-range sample: the body succeeds and the loop recurses
          have hlt : i0 < min N multiplier.length := lt_min hN hmi
          rw [analyzeLoop, dif_pos hN,
            analyzeBody_ok calcPq mass g vizScale (by omega) (by omega)
              (by omega) hmi (by omega) (by omega)]
          simp only []
          rw [ih (i0 + k) (by omega)]
          simp only []
          have hc : ceilDiv (min N multiplier.length - i0) k =
              ceilDiv (min N multiplier.length - (i0 + k)) k + 1 := by
            rw [ceilDiv_of_pos hk (by omega)]
            congr 2
            omega
          rw [hc, Prod.mk.injEq]
          refine ⟨?_, ?_⟩
          · rw [List.range_succ_eq_map, List.map_cons, List.map_map]
            congr 1
            · congr 1
              omega
            · apply List.map_congr_left
              intro j _
              simp only [Function.comp_apply]
              congr 1
              rw [Nat.succ_mul]
              ring
          · have he : i0 + (ceilDiv (min N multiplier.length - (i0 + k)) k
                + 1) * k =
                i0 + k + ceilDiv (min N multiplier.length - (i0 + k)) k * k
                := by
              rw [Nat.succ_mul]
              ring
            rw [he]
        · -- index inside the trajectory but past the multiplier series:
          -- the body raises IndexError and the loop stops
          have hz : min N multiplier.length - i0 = 0 := by omega
          rw [analyzeLoop, dif_pos hN,
            analyzeBody_error calcPq mass g vizScale (by omega) (by omega)
              (by omega)]
          simp only []
          rw [hz, ceilDiv_zero]
          simp only [List.range_zero, List.map_nil, Nat.zero_mul,
            Nat.add_zero]
          rw [if_pos hN]
      · have hz : min N multiplier.length - i0 = 0 := by omega
        rw [analyzeLoop, dif_neg hN, hz, ceilDiv_zero]
        simp only [List.range_zero, List.map_nil, Nat.zero_mul, Nat.add_zero]
        rw [if_neg hN]
  intro i0
  exact key (N - i0) i0 le_rfl

/-- `analyze` (the loop started at 0) characterized in closed form. -/
theorem analyze_char (calcPq : ℚ → ℚ → ℚ × ℚ) (mass g vizScale : ℚ)
    (time tx ty multiplier accelx accely : List ℚ) (N k : ℕ) (hk : 0 < k)
    (htime : N ≤ time.length) (htx : N ≤ tx.length) (hty : N ≤ ty.length)
    (hax : N ≤ accelx.length) (hay : N ≤ accely.length) :
    analyze calcPq mass g vizScale time tx ty multiplier accelx accely
        N k hk =
      ((List.range (ceilDiv (min N multiplier.length) k)).map
          (fun j => sampleAt calcPq mass g vizScale time tx ty multiplier
            accelx accely (j * k)),
       if ceilDiv (min N multiplier.length) k * k < N then
         some (AnalysisError.indexError
           (ceilDiv (min N multiplier.length) k * k))
       else none) := by
  unfold analyze
  rw [analyzeLoop_char calcPq mass g vizScale time tx ty multiplier accelx
    accely N k hk htime htx hty hax hay 0]
  simp only [Nat.sub_zero, Nat.zero_add]

theorem getD_map_neg (l : List ℚ) (i : ℕ) :
    ((l.map fun x => -x).getD i 0) = -(l.getD i 0) := by
  rw [List.getD_eq_getElem?_getD, List.getElem?_map,
    List.getD_eq_getElem?_getD]
  cases l[i]? <;> simp

/-- Every emitted sample is `sampleAt` of its trajectory index: helper for
extracting per-sample facts from runs of `analyze`. -/
theorem analyze_getElem (calcPq : ℚ → ℚ → ℚ × ℚ) (mass g vizScale : ℚ)
    (time tx ty multiplier accelx accely : List ℚ) (N k : ℕ) (hk : 0 < k)
    (htime : N ≤ time.length) (htx : N ≤ tx.length) (hty : N ≤ ty.length)
    (hax : N ≤ accelx.length) (hay : N ≤ accely.length)
    (j : ℕ) (s : ResidualSample)
    (hs : (analyze calcPq mass g vizScale time tx ty multiplier accelx accely
      N k hk).1[j]? = some s) :
    s = sampleAt calcPq mass g vizScale time tx ty multiplier accelx accely
      (j * k) := by
  rw [analyze_char calcPq mass g vizScale time tx ty multiplier accelx accely
    N k hk htime htx hty hax hay, List.getElem?_map] at hs
  have hjlt : j < ceilDiv (min N multiplier.length) k := by
    by_contra hge
    rw [List.getElem?_eq_none (by simpa using not_lt.mp hge)] at hs
    exact absurd hs (by simp)
  rw [List.getElem?_range hjlt] at hs
  simp only [Option.map_some', Option.some.injEq] at hs
  exact hs.symm

/-- C1: every emitted sample's residuals are given by exactly the additive
formulas `residual_tx = F_constraint.x - mass * accelx_i` and
`residual_ty = -mass * gravity + F_constraint.y - mass * accely_i`, with
`F_constraint = J * mult_i`; the gravity term appears only in the `ty`
component. -/
theorem residuals_additive_formula (calcPq : ℚ → ℚ → ℚ × ℚ)
    (mass g vizScale : ℚ)
    (time tx ty multiplier accelx accely : List ℚ) (N k : ℕ) (hk : 0 < k)
    (htime : N ≤ time.length) (htx : N ≤ tx.length) (hty : N ≤ ty.length)
    (hax : N ≤ accelx.length) (hay : N ≤ accely.length)
    (j : ℕ) (s : ResidualSample)
    (hs : (analyze calcPq mass g vizScale time tx ty multiplier accelx accely
      N k hk).1[j]? = some s) :
    s.forcex = (calcPq (tx.getD (j * k) 0) (ty.getD (j * k) 0)).1 *
        multiplier.getD (j * k) 0 ∧
    s.forcey = (calcPq (tx.getD (j * k) 0) (ty.getD (j * k) 0)).2 *
        multiplier.getD (j * k) 0 ∧
    s.residualx = s.forcex - mass * accelx.getD (j * k) 0 ∧
    s.residualy = -mass * g + s.forcey - mass * accely.getD (j * k) 0 := by
  have h := analyze_getElem calcPq mass g vizScale time tx ty multiplier
    accelx accely N k hk htime htx hty hax hay j s hs
  subst h
  exact ⟨rfl, rfl, rfl, rfl⟩

/-- Witness for C1 at the spec's concrete scenario (`J = [2*tx, -1]` at
`tx = 1`, mass 1, gravity 9.8 = 49/5, multiplier 3, accelerations 2 and
12). -/
theorem residuals_additive_formula_witness :
    (6 : ℚ) = 2 * 1 * 3 ∧ (-3 : ℚ) = -1 * 3 ∧
    (4 : ℚ) = 6 - 1 * 2 ∧ (-124/5 : ℚ) = -1 * (49/5) + -3 - 1 * 12 := by
  exact residuals_additive_formula (fun a _ => (2 * a, -1)) 1 (49/5) (1/100)
    [0] [1] [1] [3] [2] [12] 1 1 Nat.one_pos
    (by decide) (by decide) (by decide) (by decide) (by decide)
    0 ⟨0, 6, -3, 3/50, -3/100, 4, -124/5⟩
    (by
      rw [analyze_char (fun a _ => (2 * a, -1)) 1 (49/5) (1/100)
        [0] [1] [1] [3] [2] [12] 1 1 Nat.one_pos
        (by decide) (by decide) (by decide) (by decide) (by decide)]
      norm_num [ceilDiv, sampleAt, List.getD])

/-- C3: the spec's concrete scenario — Jacobian `[2*tx, -1]` at `tx = 1`,
mass 1, gravity 9.8 = 49/5, sign-adjusted multiplier 3, accelerations
`accelx = 2`, `accely = 12` — yields `F_constraint = [6, -3]`,
`residual_tx = 4` and `residual_ty = -24.8 = -124/5` (the visualization
copy is the force scaled by the source's 0.010). -/
theorem concrete_scenario :
    analyze (fun a _ => (2 * a, -1)) 1 (49/5) defaultVizScale
        [1] [1] [1] [3] [2] [12] 1 defaultStride (by decide) =
      ([⟨1, 6, -3, 3/50, -3/100, 4, -124/5⟩], none) := by
  rw [analyze_char (fun a _ => (2 * a, -1)) 1 (49/5) defaultVizScale
    [1] [1] [1] [3] [2] [12] 1 defaultStride (by decide)
    (by decide) (by decide) (by decide) (by decide) (by decide)]
  have h1 : ceilDiv (min 1 [(3 : ℚ)].length) defaultStride = 1 := by decide
  rw [h1, show List.range 1 = [0] from rfl]
  norm_num [sampleAt, List.getD, defaultStride, defaultVizScale]

/-- C4 counterexample: with a trajectory of 11 samples, a multiplier series
of length 1 and the source stride 10, the run emits one `ResidualSample`
before failing with an `IndexError` at index 10 — so no `ConfigurationError`
is raised before any sample is produced, and partial output is emitted,
contradicting the claimed fail-fast validation. -/
theorem no_failfast_validation_counterexample :
    (analyze (fun a _ => (2 * a, -1)) 1 (49/5) defaultVizScale
        (List.replicate 11 0) (List.replicate 11 0) (List.replicate 11 0)
        [1] (List.replicate 11 0) (List.replicate 11 0)
        11 defaultStride (by decide)).1.length = 1 ∧
    (analyze (fun a _ => (2 * a, -1)) 1 (49/5) defaultVizScale
        (List.replicate 11 0) (List.replicate 11 0) (List.replicate 11 0)
        [1] (List.replicate 11 0) (List.replicate 11 0)
        11 defaultStride (by decide)).2 =
      some (AnalysisError.indexError 10) := by
  rw [analyze_char (fun a _ => (2 * a, -1)) 1 (49/5) defaultVizScale
    (List.replicate 11 0) (List.replicate 11 0) (List.replicate 11 0)
    [1] (List.replicate 11 0) (List.replicate 11 0)
    11 defaultStride (by decide)
    (by decide) (by decide) (by decide) (by decide) (by decide)]
  norm_num [ceilDiv, defaultStride]

/-- C4 amended: a multiplier series shorter than the trajectory is not
detected up front; the loop emits a sample for every analyzed index below
the multiplier length (partial output), and raises an index error at the
first analyzed index beyond it only if that index is still inside the
trajectory — otherwise the run completes without any error. -/
theorem short_multiplier_behavior (calcPq : ℚ → ℚ → ℚ × ℚ)
    (mass g vizScale : ℚ)
    (time tx ty multiplier accelx accely : List ℚ) (N k : ℕ) (hk : 0 < k)
    (htime : N ≤ time.length) (htx : N ≤ tx.length) (hty : N ≤ ty.length)
    (hax : N ≤ accelx.length) (hay : N ≤ accely.length)
    (hshort : multiplier.length < N) :
    (analyze calcPq mass g vizScale time tx ty multiplier accelx accely
        N k hk).1.length = ceilDiv multiplier.length k ∧
    (analyze calcPq mass g vizScale time tx ty multiplier accelx accely
        N k hk).2 =
      (if ceilDiv multiplier.length k * k < N then
        some (AnalysisError.indexError (ceilDiv multiplier.length k * k))
      else none) := by
  rw [analyze_char calcPq mass g vizScale time tx ty multiplier accelx accely
    N k hk htime htx hty hax hay]
  rw [min_eq_right (le_of_lt hshort)]
  exact ⟨by simp, rfl⟩

/-- Witness for the amended C4: the counterexample configuration, via the
amended theorem. -/
theorem short_multiplier_behavior_witness :
    (analyze (fun a _ => (2 * a, -1)) 1 (49/5) (1/100)
        (List.replicate 11 0) (List.replicate 11 0) (List.replicate 11 0)
        [1] (List.replicate 11 0) (List.replicate 11 0)
        11 10 (by decide)).1.length = ceilDiv 1 10 ∧
    (analyze (fun a _ => (2 * a, -1)) 1 (49/5) (1/100)
        (List.replicate 11 0) (List.replicate 11 0) (List.replicate 11 0)
        [1] (List.replicate 11 0) (List.replicate 11 0)
        11 10 (by decide)).2 =
      (if ceilDiv 1 10 * 10 < 11 then
        some (AnalysisError.indexError (ceilDiv 1 10 * 10))
      else none) := by
  exact short_multiplier_behavior (fun a _ => (2 * a, -1)) 1 (49/5) (1/100)
    (List.replicate 11 0) (List.replicate 11 0) (List.replicate 11 0)
    [1] (List.replicate 11 0) (List.replicate 11 0)
    11 10 (by decide)
    (by decide) (by decide) (by decide) (by decide) (by decide) (by decide)

/-- C5: on a trajectory of length `N` with all series of length `N` and any
positive stride `k`, the analysis completes without error, emits exactly
`⌈N / k⌉` samples, and the emitted time values are exactly the subsequence
`time[0], time[k], time[2k], …` of the input time grid. -/
theorem stride_subsample (calcPq : ℚ → ℚ → ℚ × ℚ) (mass g vizScale : ℚ)
    (time tx ty multiplier accelx accely : List ℚ) (N k : ℕ) (hk : 0 < k)
    (htime : time.length = N) (htx : tx.length = N) (hty : ty.length = N)
    (hmult : multiplier.length = N)
    (hax : accelx.length = N) (hay : accely.length = N) :
    (analyze calcPq mass g vizScale time tx ty multiplier accelx accely
        N k hk).1.length = ceilDiv N k ∧
    (analyze calcPq mass g vizScale time tx ty multiplier accelx accely
        N k hk).1.map ResidualSample.time =
      (List.range (ceilDiv N k)).map (fun j => time.getD (j * k) 0) ∧
    (analyze calcPq mass g vizScale time tx ty multiplier accelx accely
        N k hk).2 = none := by
  rw [analyze_char calcPq mass g vizScale time tx ty multiplier accelx accely
    N k hk (le_of_eq htime.symm) (le_of_eq htx.symm) (le_of_eq hty.symm)
    (le_of_eq hax.symm) (le_of_eq hay.symm)]
  rw [hmult, min_self]
  refine ⟨by simp, ?_, ?_⟩
  · rw [List.map_map]
    apply List.map_congr_left
    intro j _
    rfl
  · rw [if_neg (not_lt.mpr (le_ceilDiv_mul hk N))]

/-- Witness for C5: a 3-sample trajectory with stride 2 produces
`⌈3 / 2⌉ = 2` samples at times `time[0]` and `time[2]`, and no error. -/
theorem stride_subsample_witness :
    (analyze (fun _ _ => (0, 0)) 1 (49/5) (1/100)
        [5, 6, 7] [0, 0, 0] [0, 0, 0] [0, 0, 0] [0, 0, 0] [0, 0, 0]
        3 2 (by decide)).1.length = ceilDiv 3 2 ∧
    (analyze (fun _ _ => (0, 0)) 1 (49/5) (1/100)
        [5, 6, 7] [0, 0, 0] [0, 0, 0] [0, 0, 0] [0, 0, 0] [0, 0, 0]
        3 2 (by decide)).1.map ResidualSample.time =
      (List.range (ceilDiv 3 2)).map
        (fun j => ([(5 : ℚ), 6, 7]).getD (j * 2) 0) ∧
    (analyze (fun _ _ => (0, 0)) 1 (49/5) (1/100)
        [5, 6, 7] [0, 0, 0] [0, 0, 0] [0, 0, 0] [0, 0, 0] [0, 0, 0]
        3 2 (by decide)).2 = none := by
  exact stride_subsample (fun _ _ => (0, 0)) 1 (49/5) (1/100)
    [5, 6, 7] [0, 0, 0] [0, 0, 0] [0, 0, 0] [0, 0, 0] [0, 0, 0]
    3 2 (by decide)
    (by decide) (by decide) (by decide) (by decide) (by decide) (by decide)

/-- The loop body under one visualization scale is the body under another
with only the two viz fields rewritten. -/
theorem analyzeBody_vizScale (calcPq : ℚ → ℚ → ℚ × ℚ) (mass g : ℚ)
    (v1 v2 : ℚ) (time tx ty multiplier accelx accely : List ℚ) (i : ℕ) :
    analyzeBody calcPq mass g v2 time tx ty multiplier accelx accely i =
      (analyzeBody calcPq mass g v1 time tx ty multiplier accelx accely
        i).map
        (fun s => { s with vizx := v2 * s.forcex, vizy := v2 * s.forcey }) :=
  by
  unfold analyzeBody getAt
  cases tx[i]? <;> cases ty[i]? <;> cases multiplier[i]? <;>
    cases accelx[i]? <;> cases accely[i]? <;> cases time[i]? <;> rfl

theorem analyzeBody_vizScale_ok (calcPq : ℚ → ℚ → ℚ × ℚ) (mass g : ℚ)
    (v1 v2 : ℚ) {time tx ty multiplier accelx accely : List ℚ} {i : ℕ}
    {s : ResidualSample}
    (hbody : analyzeBody calcPq mass g v1 time tx ty multiplier accelx accely
      i = Except.ok s) :
    analyzeBody calcPq mass g v2 time tx ty multiplier accelx accely i =
      Except.ok { s with vizx := v2 * s.forcex, vizy := v2 * s.forcey } := by
  rw [analyzeBody_vizScale calcPq mass g v1 v2, hbody]
  rfl

theorem analyzeBody_vizScale_error (calcPq : ℚ → ℚ → ℚ × ℚ) (mass g : ℚ)
    (v1 v2 : ℚ) {time tx ty multiplier accelx accely : List ℚ} {i : ℕ}
    {e : AnalysisError}
    (hbody : analyzeBody calcPq mass g v1 time tx ty multiplier accelx accely
      i = Except.error e) :
    analyzeBody calcPq mass g v2 time tx ty multiplier accelx accely i =
      Except.error e := by
  rw [analyzeBody_vizScale calcPq mass g v1 v2, hbody]
  rfl

/-- The loop under one visualization scale: same errors, same samples up to
the two viz fields. -/
theorem analyzeLoop_vizScale (calcPq : ℚ → ℚ → ℚ × ℚ) (mass g : ℚ)
    (v1 v2 : ℚ) (time tx ty multiplier accelx accely : List ℚ)
    (N k : ℕ) (hk : 0 < k) :
    ∀ i0,
      (analyzeLoop calcPq mass g v2 time tx ty multiplier accelx accely
          N k hk i0).1 =
        (analyzeLoop calcPq mass g v1 time tx ty multiplier accelx accely
          N k hk i0).1.map
          (fun s => { s with vizx := v2 * s.forcex, vizy := v2 * s.forcey })
        ∧
      (analyzeLoop calcPq mass g v2 time tx ty multiplier accelx accely
          N k hk i0).2 =
        (analyzeLoop calcPq mass g v1 time tx ty multiplier accelx accely
          N k hk i0).2 := by
  have key : ∀ (d i0 : ℕ), N - i0 ≤ d →
      (analyzeLoop calcPq mass g v2 time tx ty multiplier accelx accely
          N k hk i0).1 =
        (analyzeLoop calcPq mass g v1 time tx ty multiplier accelx accely
          N k hk i0).1.map
          (fun s => { s with vizx := v2 * s.forcex, vizy := v2 * s.forcey })
        ∧
      (analyzeLoop calcPq mass g v2 time tx ty multiplier accelx accely
          N k hk i0).2 =
        (analyzeLoop calcPq mass g v1 time tx ty multiplier accelx accely
          N k hk i0).2 := by
    intro d
    induction d with
    | zero =>
      intro i0 hd
      have hN : ¬ i0 < N := by omega
      rw [analyzeLoop.eq_def calcPq mass g v2 time tx ty multiplier accelx
          accely N k hk i0,
        analyzeLoop.eq_def calcPq mass g v1 time tx ty multiplier accelx
          accely N k hk i0,
        dif_neg hN, dif_neg hN]
      exact ⟨rfl, rfl⟩
    | succ d ih =>
      intro i0 hd
      by_cases hN : i0 < N
      · rw [analyzeLoop.eq_def calcPq mass g v2 time tx ty multiplier accelx
            accely N k hk i0,
          analyzeLoop.eq_def calcPq mass g v1 time tx ty multiplier accelx
            accely N k hk i0,
          dif_pos hN, dif_pos hN]
        cases hbody : analyzeBody calcPq mass g v1 time tx ty multiplier
            accelx accely i0 with
        | error e =>
          rw [analyzeBody_vizScale_error calcPq mass g v1 v2 hbody]
          exact ⟨rfl, rfl⟩
        | ok s =>
          rw [analyzeBody_vizScale_ok calcPq mass g v1 v2 hbody]
          simp only []
          obtain ⟨ih1, ih2⟩ := ih (i0 + k) (by omega)
          rw [ih1, ih2, List.map_cons]
          exact ⟨rfl, rfl⟩
      · rw [analyzeLoop.eq_def calcPq mass g v2 time tx ty multiplier accelx
            accely N k hk i0,
          analyzeLoop.eq_def calcPq mass g v1 time tx ty multiplier accelx
            accely N k hk i0,
          dif_neg hN, dif_neg hN]
        exact ⟨rfl, rfl⟩
  intro i0
  exact key (N - i0) i0 le_rfl

/-- C6: two runs on identical inputs that differ only in the visualization
scale produce identical residual (and force and time) values at every
sample, and the same error behaviour: `forceVizScale` never influences the
residual computation. -/
theorem vizScale_residual_isolation (calcPq : ℚ → ℚ → ℚ × ℚ) (mass g : ℚ)
    (v1 v2 : ℚ) (time tx ty multiplier accelx accely : List ℚ)
    (N k : ℕ) (hk : 0 < k) :
    (analyze calcPq mass g v1 time tx ty multiplier accelx accely
        N k hk).1.map
        (fun s => (s.time, s.forcex, s.forcey, s.residualx, s.residualy)) =
      (analyze calcPq mass g v2 time tx ty multiplier accelx accely
        N k hk).1.map
        (fun s => (s.time, s.forcex, s.forcey, s.residualx, s.residualy)) ∧
    (analyze calcPq mass g v1 time tx ty multiplier accelx accely
        N k hk).2 =
      (analyze calcPq mass g v2 time tx ty multiplier accelx accely
        N k hk).2 := by
  obtain ⟨h1, h2⟩ := analyzeLoop_vizScale calcPq mass g v1 v2 time tx ty
    multiplier accelx accely N k hk 0
  unfold analyze
  rw [h1, h2, List.map_map]
  exact ⟨rfl, rfl⟩

/-- Witness for C6 at a concrete configuration (scales 1/100 and 7). -/
theorem vizScale_residual_isolation_witness :
    (analyze (fun a _ => (2 * a, -1)) 1 (49/5) (1/100)
        [0] [1] [1] [3] [2] [12] 1 10 (by decide)).1.map
        (fun s => (s.time, s.forcex, s.forcey, s.residualx, s.residualy)) =
      (analyze (fun a _ => (2 * a, -1)) 1 (49/5) 7
        [0] [1] [1] [3] [2] [12] 1 10 (by decide)).1.map
        (fun s => (s.time, s.forcex, s.forcey, s.residualx, s.residualy)) ∧
    (analyze (fun a _ => (2 * a, -1)) 1 (49/5) (1/100)
        [0] [1] [1] [3] [2] [12] 1 10 (by decide)).2 =
      (analyze (fun a _ => (2 * a, -1)) 1 (49/5) 7
        [0] [1] [1] [3] [2] [12] 1 10 (by decide)).2 := by
  exact vizScale_residual_isolation (fun a _ => (2 * a, -1)) 1 (49/5)
    (1/100) 7 [0] [1] [1] [3] [2] [12] 1 10 (by decide)

/-- C7: negating the input multiplier series negates the constraint force
componentwise and changes each residual by exactly twice the original
force: the force is linear and the residual affine in the multiplier. -/
theorem multiplier_negation_linearity (calcPq : ℚ → ℚ → ℚ × ℚ)
    (mass g vizScale : ℚ)
    (time tx ty multiplier accelx accely : List ℚ) (N k : ℕ) (hk : 0 < k)
    (htime : N ≤ time.length) (htx : N ≤ tx.length) (hty : N ≤ ty.length)
    (hax : N ≤ accelx.length) (hay : N ≤ accely.length)
    (j : ℕ) (s s' : ResidualSample)
    (hs : (analyze calcPq mass g vizScale time tx ty multiplier accelx accely
      N k hk).1[j]? = some s)
    (hs' : (analyze calcPq mass g vizScale time tx ty
      (multiplier.map fun x => -x) accelx accely N k hk).1[j]? = some s') :
    s'.forcex = -s.forcex ∧ s'.forcey = -s.forcey ∧
    s.residualx - s'.residualx = 2 * s.forcex ∧
    s.residualy - s'.residualy = 2 * s.forcey := by
  have h1 := analyze_getElem calcPq mass g vizScale time tx ty multiplier
    accelx accely N k hk htime htx hty hax hay j s hs
  have h2 := analyze_getElem calcPq mass g vizScale time tx ty
    (multiplier.map fun x => -x) accelx accely N k hk htime htx hty hax hay
    j s' hs'
  subst h1
  subst h2
  simp only [sampleAt, getD_map_neg]
  refine ⟨by ring, by ring, by ring, by ring⟩

/-- Witness for C7 at the concrete scenario of C3, multiplier 3 versus
-3. -/
theorem multiplier_negation_linearity_witness :
    (-6 : ℚ) = -6 ∧ (3 : ℚ) = -(-3) ∧
    (4 : ℚ) - (-8) = 2 * 6 ∧ (-124/5 : ℚ) - (-94/5) = 2 * (-3) := by
  exact multiplier_negation_linearity (fun a _ => (2 * a, -1)) 1 (49/5)
    (1/100) [0] [1] [1] [3] [2] [12] 1 1 Nat.one_pos
    (by decide) (by decide) (by decide) (by decide) (by decide)
    0 ⟨0, 6, -3, 3/50, -3/100, 4, -124/5⟩ ⟨0, -6, 3, -3/50, 3/100, -8, -94/5⟩
    (by
      rw [analyze_char (fun a _ => (2 * a, -1)) 1 (49/5) (1/100)
        [0] [1] [1] [3] [2] [12] 1 1 Nat.one_pos
        (by decide) (by decide) (by decide) (by decide) (by decide)]
      norm_num [ceilDiv, sampleAt, List.getD])
    (by
      rw [analyze_char (fun a _ => (2 * a, -1)) 1 (49/5) (1/100)
        [0] [1] [1] ([3].map fun x => -x) [2] [12] 1 1 Nat.one_pos
        (by decide) (by decide) (by decide) (by decide) (by decide)]
      norm_num [ceilDiv, sampleAt, List.getD])

/-- C2: the analyzer negates the solver-reported multiplier series before
use, so every emitted sample's constraint force is
`F = -J * lambda_reported` componentwise. -/
theorem multiplier_sign_convention (calcPq : ℚ → ℚ → ℚ × ℚ)
    (mass g vizScale : ℚ) (sol : MocoSolution) (accelx accely : List ℚ)
    (k : ℕ) (hk : 0 < k)
    (htx : sol.timeMat.length ≤ sol.txMat.length)
    (hty : sol.timeMat.length ≤ sol.tyMat.length)
    (hax : sol.timeMat.length ≤ accelx.length)
    (hay : sol.timeMat.length ≤ accely.length)
    (j : ℕ) (s : ResidualSample)
    (hs : (analyzeSolution calcPq mass g vizScale sol accelx accely
      k hk).1[j]? = some s) :
    s.forcex =
      -((calcPq (sol.txMat.getD (j * k) 0) (sol.tyMat.getD (j * k) 0)).1 *
        (sol.multiplierMat (sol.multiplierNames.headD "")).getD (j * k) 0) ∧
    s.forcey =
      -((calcPq (sol.txMat.getD (j * k) 0) (sol.tyMat.getD (j * k) 0)).2 *
        (sol.multiplierMat (sol.multiplierNames.headD "")).getD (j * k) 0)
    := by
  unfold analyzeSolution at hs
  have h := analyze_getElem calcPq mass g vizScale sol.timeMat sol.txMat
    sol.tyMat (scriptMultiplier sol) accelx accely sol.timeMat.length k hk
    le_rfl htx hty hax hay j s hs
  subst h
  simp only [sampleAt, scriptMultiplier, getD_map_neg]
  constructor <;> ring

/-- Witness for C2: a one-sample solution with reported multiplier 3 yields
forces `-J * 3 = [-6, 3]`. -/
theorem multiplier_sign_convention_witness :
    (-6 : ℚ) = -(2 * 1 * 3) ∧ (3 : ℚ) = -(-1 * 3) := by
  exact multiplier_sign_convention (fun a _ => (2 * a, -1)) 1 (49/5) (1/100)
    (MocoSolution.mk [0] [1] [1] ["lambda0"] (fun _ => [3])) [2] [12]
    1 Nat.one_pos (by decide) (by decide) (by decide) (by decide)
    0 ⟨0, -6, 3, -3/50, 3/100, -8, -94/5⟩
    (by
      unfold analyzeSolution
      simp only [scriptMultiplier, List.length_singleton]
      rw [analyze_char (fun a _ => (2 * a, -1)) 1 (49/5) (1/100)
        [0] [1] [1] ([3].map fun x => -x) [2] [12] 1 1 Nat.one_pos
        (by decide) (by decide) (by decide) (by decide) (by decide)]
      norm_num [ceilDiv, sampleAt, List.getD])

/-- C8: the analysis depends only on the trajectory columns and the
multiplier series of the first-listed multiplier name: two solutions
agreeing on those (however many additional multiplier series either one
carries) produce identical analyses. -/
theorem first_multiplier_only (calcPq : ℚ → ℚ → ℚ × ℚ)
    (mass g vizScale : ℚ) (accelx accely : List ℚ) (k : ℕ) (hk : 0 < k)
    (sol1 sol2 : MocoSolution) (nm : String)
    (ht : sol1.timeMat = sol2.timeMat) (hx : sol1.txMat = sol2.txMat)
    (hy : sol1.tyMat = sol2.tyMat)
    (h1 : sol1.multiplierNames.head? = some nm)
    (h2 : sol2.multiplierNames.head? = some nm)
    (hm : sol1.multiplierMat nm = sol2.multiplierMat nm) :
    analyzeSolution calcPq mass g vizScale sol1 accelx accely k hk =
      analyzeSolution calcPq mass g vizScale sol2 accelx accely k hk := by
  have e1 : sol1.multiplierNames.headD "" = nm := by
    rw [List.headD_eq_head?_getD, h1]
    rfl
  have e2 : sol2.multiplierNames.headD "" = nm := by
    rw [List.headD_eq_head?_getD, h2]
    rfl
  unfold analyzeSolution scriptMultiplier
  rw [e1, e2, hm, ht, hx, hy]

/-- Witness for C8: a solution with one extra multiplier series (and a
different name list tail) analyzes identically to one without it. -/
theorem first_multiplier_only_witness :
    analyzeSolution (fun a _ => (2 * a, -1)) 1 (49/5) (1/100)
        (MocoSolution.mk [0] [1] [1] ["lambda0", "extra"]
          (fun n => if n = "lambda0" then [3] else [99])) [2] [12]
        1 Nat.one_pos =
      analyzeSolution (fun a _ => (2 * a, -1)) 1 (49/5) (1/100)
        (MocoSolution.mk [0] [1] [1] ["lambda0"] (fun _ => [3])) [2] [12]
        1 Nat.one_pos := by
  exact first_multiplier_only (fun a _ => (2 * a, -1)) 1 (49/5) (1/100)
    [2] [12] 1 Nat.one_pos
    (MocoSolution.mk [0] [1] [1] ["lambda0", "extra"]
      (fun n => if n = "lambda0" then [3] else [99]))
    (MocoSolution.mk [0] [1] [1] ["lambda0"] (fun _ => [3]))
    "lambda0" rfl rfl rfl rfl rfl (by norm_num)

/-- C9: the gravity scalar is the absolute value of the gravity vector's
y-component, so it is nonnegative, the `ty` residual's gravity term
`-mass * g` is nonpositive for nonnegative mass, and flipping the sign of
the configured y-gravity leaves the scalar unchanged. -/
theorem gravity_abs_nonneg (gravity : ℚ × ℚ × ℚ) (mass : ℚ)
    (hm : 0 ≤ mass) :
    0 ≤ gravityScalar gravity ∧
    -mass * gravityScalar gravity ≤ 0 ∧
    gravityScalar (gravity.1, -gravity.2.1, gravity.2.2) =
      gravityScalar gravity := by
  refine ⟨abs_nonneg _, ?_, ?_⟩
  · rw [neg_mul]
    exact neg_nonpos.mpr (mul_nonneg hm (abs_nonneg _))
  · unfold gravityScalar
    exact abs_neg _

/-- Witness for C9 at the OpenSim default gravity `(0, -9.80665, 0)` and
mass 1. -/
theorem gravity_abs_nonneg_witness :
    0 ≤ gravityScalar (0, -980665/100000, 0) ∧
    -1 * gravityScalar (0, -980665/100000, 0) ≤ 0 ∧
    gravityScalar ((0, -980665/100000, 0).1, -(0, -980665/100000, 0).2.1,
        (0, (-980665 : ℚ)/100000, 0).2.2) =
      gravityScalar (0, -980665/100000, 0) := by
  exact gravity_abs_nonneg (0, -980665/100000, 0) 1 (by norm_num)

/-- C10: when the pylab/scipy import fails, the script takes the
`Skipping plotting` branch and performs no residual analysis at all — the
outcome carries no samples, whatever the other inputs are. -/
theorem import_failure_skips (calcPq : ℚ → ℚ → ℚ × ℚ) (mass : ℚ)
    (gravity : ℚ × ℚ × ℚ) (vizScale : ℚ) (sol : MocoSolution)
    (accelx accely : List ℚ) (k : ℕ) (hk : 0 < k) :
    scriptMain false calcPq mass gravity vizScale sol accelx accely k hk =
      ScriptOutcome.skippedPlotting ∧
    emittedSamples
      (scriptMain false calcPq mass gravity vizScale sol accelx accely k hk)
      = [] := by
  exact ⟨rfl, rfl⟩

/-- Witness for C10 at a concrete configuration. -/
theorem import_failure_skips_witness :
    scriptMain false (fun a _ => (2 * a, -1)) 1 (0, -49/5, 0) (1/100)
        (MocoSolution.mk [0] [1] [1] ["lambda0"] (fun _ => [3])) [2] [12]
        10 (by decide) =
      ScriptOutcome.skippedPlotting ∧
    emittedSamples
      (scriptMain false (fun a _ => (2 * a, -1)) 1 (0, -49/5, 0) (1/100)
        (MocoSolution.mk [0] [1] [1] ["lambda0"] (fun _ => [3])) [2] [12]
        10 (by decide)) = [] := by
  exact import_failure_skips (fun a _ => (2 * a, -1)) 1 (0, -49/5, 0)
    (1/100) (MocoSolution.mk [0] [1] [1] ["lambda0"] (fun _ => [3]))
    [2] [12] 10 (by decide)

end KinematicConstraints
